import Mathlib

/-!
Shallow embedding of `air_download/air_download.py` (the download
orchestration core: output-path resolution, inclusion filtering, the
archive start/poll state machine and the per-exam download loop), with
theorems settling the specification claims about it.

Modelling conventions:
* a Python `dict` record (exam / series objects from the API) is an
  association list `List (String × String)`; `d.get(k)` is `List.lookup`
  and `d[k]` is `List.lookup` combined with an `Except` error (KeyError);
* a `pathlib.Path` is its list of components (`Path("./out")` is
  `["out"]`); `Path.suffix` / `Path.stem` are computed on the final
  component exactly as pathlib does (last-dot rule with the
  `0 < i < len-1` guard);
* filesystem existence (`Path.exists`) is an explicit boolean argument;
* a raised Python exception is `Except.error ()`.
-/

set_option autoImplicit false

namespace AirDownload

/-- A JSON-object record (exam or series) as an association list. -/
abbrev Rec := List (String × String)

instance {e a : Type} [DecidableEq e] [DecidableEq a] : DecidableEq (Except e a) := fun x y =>
  match x, y with
  | .error u, .error v =>
    if h : u = v then isTrue (by rw [h]) else isFalse (fun hc => h (Except.error.inj hc))
  | .ok u, .ok v =>
    if h : u = v then isTrue (by rw [h]) else isFalse (fun hc => h (Except.ok.inj hc))
  | .error _, .ok _ => isFalse (fun hc => Except.noConfusion hc)
  | .ok _, .error _ => isFalse (fun hc => Except.noConfusion hc)

/-- `needle` occurs as a contiguous sublist of `hay`. -/
def hasInfixList (needle : List Char) : List Char → Bool
  | [] => needle.isEmpty
  | c :: t => needle.isPrefixOf (c :: t) || hasInfixList needle t

/-- Python `needle in hay` (substring containment) on strings. -/
def strContains (hay needle : String) : Bool :=
  hasInfixList needle.toList hay.toList

/-- Python `str.lower()` (ASCII case folding, as the source's inputs use). -/
def strToLower (s : String) : String :=
  String.mk (s.toList.map Char.toLower)

/-- Python `str.endswith(t)`. -/
def strEndsWith (s t : String) : Bool :=
  t.toList.reverse.isPrefixOf s.toList.reverse

/-- Python `str.split(",")` on the underlying characters:
`"".split(",") == [""]` and separators are not merged. -/
def splitComma : List Char → List (List Char)
  | [] => [[]]
  | c :: t =>
    if c = ',' then [] :: splitComma t
    else
      match splitComma t with
      | [] => [[c]]
      | h :: r => (c :: h) :: r

/-- Python `str.strip()`: drop whitespace from both ends. -/
def stripChars (cs : List Char) : List Char :=
  ((cs.dropWhile Char.isWhitespace).reverse.dropWhile Char.isWhitespace).reverse

/-- Index of the last `.` in a character list (Python `str.rfind('.')`),
`none` when absent. -/
def rfindDot (cs : List Char) : Option Nat :=
  match cs.reverse.findIdx? (fun c => c = '.') with
  | none => none
  | some j => some (cs.length - 1 - j)

/-- `pathlib.PurePath.suffix` of a final path component: `name[i:]` for
`i = name.rfind('.')` when `0 < i < len(name) - 1`, else `""`. -/
def pySuffix (name : String) : String :=
  match rfindDot name.toList with
  | none => ""
  | some i =>
    if 0 < i && i + 1 < name.toList.length then
      String.mk (name.toList.drop i)
    else ""

/-- `pathlib.PurePath.stem` of a final path component: the name with
`pySuffix` removed. -/
def pyStem (name : String) : String :=
  match rfindDot name.toList with
  | none => name
  | some i =>
    if 0 < i && i + 1 < name.toList.length then
      String.mk (name.toList.take i)
    else name

/-- The final component of a path (`pathlib.PurePath.name`). -/
def pathName (p : List String) : String :=
  p.getLastD ""

/-- `exam.get("accessionNumber") or f"exam_(exam_index + 1)"` from
`_build_exam_output_path`: the fallback fires when the key is absent or
its value is the empty string (Python falsiness). -/
def accName (exam : Rec) (examIndex : Nat) : String :=
  match exam.lookup "accessionNumber" with
  | none => "exam_" ++ toString (examIndex + 1)
  | some s => if s = "" then "exam_" ++ toString (examIndex + 1) else s

/-- Result of `_build_exam_output_path`: the returned path plus whether
`p.mkdir(parents=True, exist_ok=True)` was invoked. -/
structure BuildResult where
  outPath : List String
  mkdirCalled : Bool
deriving Repr, DecidableEq

/-- `_build_exam_output_path(base_output, exam, exam_index)`
(air_download.py lines 171-197), with the filesystem probe
`base_output.exists()` passed in as `baseExists`. -/
def buildExamOutputPath (baseOutput : List String) (baseExists : Bool)
    (exam : Rec) (examIndex : Nat) : BuildResult :=
  let name := pathName baseOutput
  if strEndsWith (strToLower (pySuffix name)) ".zip" = false then
    -- p is supposed to be a directory: mkdir, return p / "acc.zip"
    { outPath := baseOutput ++ [accName exam examIndex ++ ".zip"]
      mkdirCalled := true }
  else if baseExists = false && strEndsWith (strToLower (pySuffix name)) ".zip" = true then
    { outPath := baseOutput, mkdirCalled := false }
  else
    -- append index before the extension to avoid overwriting
    { outPath := baseOutput.dropLast ++
        [pyStem name ++ "_" ++ toString (examIndex + 1) ++ pySuffix name]
      mkdirCalled := false }

/-- The per-exam output paths produced across one run's download loop:
`_build_exam_output_path(output, study, i)` for `i, study` in
`enumerate(exams)` (air_download.py lines 279-283). -/
def resolvedPaths (baseOutput : List String) (baseExists : Bool)
    (exams : List Rec) : List (List String) :=
  exams.enum.map (fun p => (buildExamOutputPath baseOutput baseExists p.2 p.1).outPath)

/-- `[p.strip().lower() for p in patterns.split(",")]` from
`apply_inclusion_filter`. -/
def parsePatterns (patterns : String) : List String :=
  (splitComma patterns.toList).map
    (fun p => String.mk ((stripChars p).map Char.toLower))

/-- The list-comprehension predicate of `apply_inclusion_filter`:
`i.get(field_name) and any(p in i[field_name].lower() for p in pattern_list)`. -/
def keepRecord (fieldName : String) (patternList : List String) (i : Rec) : Bool :=
  match i.lookup fieldName with
  | none => false
  | some v =>
    if v = "" then false
    else patternList.any (fun p => strContains (strToLower v) p)

/-- `apply_inclusion_filter(items, field_name, patterns)`
(air_download.py lines 200-227).  `patterns = none` models Python `None`.
The pre-filter diagnostic `set([i[field_name] for i in items])` indexes
every record unconditionally, so a missing key raises KeyError
(`Except.error ()`) before any filtering happens. -/
def applyInclusionFilter (items : List Rec) (fieldName : String)
    (patterns : Option String) : Except Unit (List Rec) :=
  match patterns with
  | none => .ok items
  | some ps =>
    if ps = "" then .ok items
    else if items.all (fun i => (i.lookup fieldName).isSome) then
      .ok (items.filter (keepRecord fieldName (parsePatterns ps)))
    else .error ()

/-- The response of `secure/search/download/start`: `downloadId` key
(absent on server refusal) and the `reason` text inspected on failure. -/
structure StartResponse where
  downloadId : Option String
  reason : String
deriving Repr, DecidableEq

/-- `check["status"] in ["started", "completed"]` from `has_started`. -/
def statusStarted (s : String) : Bool :=
  s = "started" || s = "completed"

/-- Diagnostic printed by `has_started` when the start response lacks a
`downloadId`; `printProjects` / `printProfiles` stand for the
`list_projects` / `list_profiles` fetch-and-print calls. -/
inductive DiagEvent
  | printProjects
  | printProfiles
  | printUnknown
deriving Repr, DecidableEq

/-- The `if "project" in reason / elif "profile" in reason / else`
classification in `has_started` (air_download.py lines 298-305). -/
def classifyFailure (reason : String) : DiagEvent :=
  if strContains reason "project" then .printProjects
  else if strContains reason "profile" then .printProfiles
  else .printUnknown

/-- Observable event of one `has_started` invocation. -/
inductive HSEvent
  | diag (d : DiagEvent)
  | raised
  | checkCall
deriving Repr, DecidableEq

/-- One invocation of `has_started(download_info)` (air_download.py lines
296-312): events in the order they happen, and `none` when the
`RuntimeError` is raised (otherwise the boolean the call returns, given
the status of the one `download/check` call it performs). -/
def hasStartedEvents (resp : StartResponse) (checkStatus : String) :
    List HSEvent × Option Bool :=
  match resp.downloadId with
  | none => ([.diag (classifyFailure resp.reason), .raised], none)
  | some _ => ([.checkCall], some (statusStarted checkStatus))

/-- Number of `download/check` calls made by
`while not has_started(download_info): time.sleep(0.1)` when the check
endpoint answers with the given status sequence; `none` when the loop
never observes `started`/`completed` within the sequence. -/
def pollCheckCalls : List String → Option Nat
  | [] => none
  | s :: rest =>
    if statusStarted s then some 1
    else (pollCheckCalls rest).map (fun n => n + 1)

/-- Number of `time.sleep(0.1)` pauses executed by the same loop: one
between consecutive check calls, none after the final (successful) one. -/
def pollSleepCount : List String → Option Nat
  | [] => none
  | s :: rest =>
    if statusStarted s then some 0
    else (pollSleepCount rest).map (fun n => n + 1)

/-- Environment one iteration of the download loop interacts with: the
series returned by `secure/search/series`, the start response, and the
status sequence the check endpoint would answer with. -/
structure ExamEnv where
  series : List Rec
  startResp : StartResponse
  pollStatuses : List String
deriving Repr, DecidableEq

/-- Outcome of one non-raising iteration of the download loop. -/
inductive ExamStep
  | skippedNoSeries
  | downloaded
  | diverged
deriving Repr, DecidableEq

/-- One iteration of the `for i, study in enumerate(exams)` body
(air_download.py lines 279-360): series inclusion filter (may raise
KeyError), `continue` on an empty filtered series set, `RuntimeError`
from `has_started` when the start response lacks a `downloadId`, else
poll until a `started`/`completed` status and stream (`diverged` when the
status sequence never allows the poll loop to exit). -/
def examStep (seriesInclusion : Option String) (env : ExamEnv) :
    Except Unit ExamStep :=
  match applyInclusionFilter env.series "description" seriesInclusion with
  | .error u => .error u
  | .ok series =>
    if series.length = 0 then .ok .skippedNoSeries
    else
      match env.startResp.downloadId with
      | none => .error ()
      | some _ =>
        match pollCheckCalls env.pollStatuses with
        | none => .ok .diverged
        | some _ => .ok .downloaded

/-- The download loop over the run's exams.  The source has no
`try`/`except` around the loop body, so a raised exception
(`Except.error`) propagates out of the loop and out of `download`; a
divergent poll never reaches the exams after it. -/
def downloadLoop (seriesInclusion : Option String) :
    List ExamEnv → Except Unit (List ExamStep)
  | [] => .ok []
  | e :: rest =>
    match examStep seriesInclusion e with
    | .error u => .error u
    | .ok .diverged => .ok [.diverged]
    | .ok .skippedNoSeries =>
      (downloadLoop seriesInclusion rest).map (fun l => .skippedNoSeries :: l)
    | .ok .downloaded =>
      (downloadLoop seriesInclusion rest).map (fun l => .downloaded :: l)

/-- Python f-string rendering of an optional value (`None` prints as
`"None"`). -/
def pyShow : Option String → String
  | none => "None"
  | some s => s

/-- `d[k]` on a record: KeyError (`Except.error ()`) when absent. -/
def getItem (r : Rec) (k : String) : Except Unit String :=
  match r.lookup k with
  | none => .error ()
  | some v => .ok v

/-- One line written to `accessions.csv` in the only-return-accessions
branch (air_download.py line 274): mrn, accessionNumber, dateTime, sex,
birthdate, double-quoted description, imageCount. -/
def csvLine (mrn : Option String) (exam : Rec) : Except Unit String := do
  let acc ← getItem exam "accessionNumber"
  let dt ← getItem exam "dateTime"
  let sex ← getItem exam "sex"
  let bd ← getItem exam "birthdate"
  let desc ← getItem exam "description"
  let ic ← getItem exam "imageCount"
  pure (pyShow mrn ++ "," ++ acc ++ "," ++ dt ++ "," ++ sex ++ "," ++ bd ++
    ",\"" ++ desc ++ "\"," ++ ic)

/-- Sequential `for exam in exams: f.write(...)` over the CSV lines,
stopping at the first KeyError. -/
def writeCsvLines (mrn : Option String) : List Rec → Except Unit (List String)
  | [] => .ok []
  | exam :: rest =>
    match csvLine mrn exam with
    | .error u => .error u
    | .ok line => (writeCsvLines mrn rest).map (fun ls => line :: ls)

/-- Result of the `download` orchestrator after authentication and
search. -/
inductive DownloadResult
  | noExams
  | accessionsListed (csvPath : List String) (lines : List String)
  | ran (steps : List ExamStep)
deriving Repr, DecidableEq

/-- `download(...)` from the search result onward (air_download.py lines
261-360): modality filter, description filter, empty-result early
return, the only-return-accessions reporting branch (append to
`output/accessions.csv`, no archive start/poll/stream), else the
download loop. -/
def downloadModel (output : List String) (mrn : Option String)
    (exams : List Rec) (modalityInc descInc seriesInc : Option String)
    (onlyReturnAccessions : Bool) (envs : List ExamEnv) :
    Except Unit DownloadResult :=
  match applyInclusionFilter exams "modality" modalityInc with
  | .error u => .error u
  | .ok exams1 =>
    match applyInclusionFilter exams1 "description" descInc with
    | .error u => .error u
    | .ok exams2 =>
      if exams2.length = 0 then .ok .noExams
      else if onlyReturnAccessions then
        match writeCsvLines mrn exams2 with
        | .error u => .error u
        | .ok lines => .ok (.accessionsListed (output ++ ["accessions.csv"]) lines)
      else
        match downloadLoop seriesInc envs with
        | .error u => .error u
        | .ok steps => .ok (.ran steps)

/-! ## Theorems about the claims -/

/-- C8: for every list of records and every field name, applying the
inclusion filter with `patterns` equal to `None` or the empty string
returns the input list unchanged: the filter is the identity function on
empty/absent patterns. -/
theorem applyInclusionFilter_identity_on_empty (items : List Rec) (fieldName : String) :
    applyInclusionFilter items fieldName none = .ok items ∧
    applyInclusionFilter items fieldName (some "") = .ok items := by
  exact ⟨rfl, by simp [applyInclusionFilter]⟩

/-- C9: for every non-empty patterns string, the inclusion filter
unconditionally indexes the named field on every record while building
its pre-filter diagnostic, so a record lacking the key makes the call
raise KeyError and return no filtered result — even though the filtering
predicate itself tolerates the missing key via `.get` (it just rejects
the record). -/
theorem applyInclusionFilter_missing_key_raises (items : List Rec)
    (fieldName : String) (ps : String) (hps : ps ≠ "")
    (h : ∃ i ∈ items, i.lookup fieldName = none) :
    applyInclusionFilter items fieldName (some ps) = .error () ∧
    ∀ (pl : List String) (i : Rec), i.lookup fieldName = none →
      keepRecord fieldName pl i = false := by
  constructor
  · obtain ⟨i, hi, hnone⟩ := h
    have hall : items.all (fun r => (r.lookup fieldName).isSome) = false := by
      cases hcase : items.all (fun r => (r.lookup fieldName).isSome) with
      | false => rfl
      | true =>
        have hx := List.all_eq_true.mp hcase i hi
        rw [hnone] at hx
        exact absurd hx (by simp)
    simp [applyInclusionFilter, hps, hall]
  · intro pl i hnone
    simp [keepRecord, hnone]

/-- C5: for every non-empty patterns string and list of records, when
the inclusion filter returns a result, that result is a subset (in fact
a sublist) of the input, and every retained record's named field is
non-empty and contains at least one of the comma-separated (stripped,
lowercased) patterns as a case-insensitive substring. -/
theorem applyInclusionFilter_sound (items : List Rec) (fieldName : String)
    (ps : String) (out : List Rec) (hps : ps ≠ "")
    (h : applyInclusionFilter items fieldName (some ps) = .ok out) :
    out.Sublist items ∧
    ∀ r ∈ out, ∃ v, r.lookup fieldName = some v ∧ v ≠ "" ∧
      ∃ p ∈ parsePatterns ps, strContains (strToLower v) p = true := by
  have hout : out = items.filter (keepRecord fieldName (parsePatterns ps)) := by
    simp only [applyInclusionFilter, if_neg hps] at h
    cases hall : items.all (fun r => (r.lookup fieldName).isSome) with
    | true =>
      rw [hall, if_pos rfl] at h
      exact (Except.ok.inj h).symm
    | false =>
      rw [hall] at h
      simp at h
  constructor
  · rw [hout]
    exact List.filter_sublist items
  · intro r hr
    rw [hout] at hr
    have hkeep := (List.mem_filter.mp hr).2
    cases hv : r.lookup fieldName with
    | none =>
      simp only [keepRecord, hv] at hkeep
      exact Bool.noConfusion hkeep
    | some v =>
      simp only [keepRecord, hv] at hkeep
      by_cases hve : v = ""
      · rw [if_pos hve] at hkeep
        exact absurd hkeep (by simp)
      · rw [if_neg hve] at hkeep
        obtain ⟨p, hp, hc⟩ := List.any_eq_true.mp hkeep
        exact ⟨v, rfl, hve, p, hp, hc⟩

/-- Witness for C5 at a concrete input: patterns `"mr"` over records
with modalities `MR` and `CT` keep exactly the `MR` record, a sublist of
the input. -/
theorem applyInclusionFilter_sound_witness :
    ("mr" : String) ≠ "" ∧
    applyInclusionFilter [[("modality", "MR")], [("modality", "CT")]] "modality"
      (some "mr") = .ok [[("modality", "MR")]] ∧
    ([[("modality", "MR")]] : List Rec).Sublist
      [[("modality", "MR")], [("modality", "CT")]] :=
  ⟨by decide, by decide,
    (applyInclusionFilter_sound [[("modality", "MR")], [("modality", "CT")]]
      "modality" "mr" [[("modality", "MR")]] (by decide) (by decide)).1⟩

/-- Witness for C9 at a concrete input: a record without the
`"modality"` key makes the filter call raise. -/
theorem applyInclusionFilter_missing_key_raises_witness :
    ("mr" : String) ≠ "" ∧
    (∃ i ∈ ([[("x", "y")]] : List Rec), i.lookup "modality" = none) ∧
    applyInclusionFilter [[("x", "y")]] "modality" (some "mr") = .error () :=
  ⟨by decide, ⟨[("x", "y")], by decide, by decide⟩,
    (applyInclusionFilter_missing_key_raises [[("x", "y")]] "modality" "mr"
      (by decide) ⟨[("x", "y")], by decide, by decide⟩).1⟩

/-- C4: for every finite sequence of check-status responses whose first
`started`/`completed` entry is `s` (everything before it neither), the
polling loop makes exactly one check call per consumed response —
`pre.length + 1` calls in total, whatever comes after `s` — with exactly
one 100ms sleep between consecutive calls (`pre.length` sleeps), and
exits to the streaming call at `s`. -/
theorem pollLoop_calls_count (pre : List String) (s : String) (post : List String)
    (hpre : ∀ x ∈ pre, statusStarted x = false) (hs : statusStarted s = true) :
    pollCheckCalls (pre ++ s :: post) = some (pre.length + 1) ∧
    pollSleepCount (pre ++ s :: post) = some pre.length := by
  induction pre with
  | nil => simp [pollCheckCalls, pollSleepCount, hs]
  | cons a t ih =>
    have ha : statusStarted a = false := hpre a (List.mem_cons_self a t)
    have ht : ∀ x ∈ t, statusStarted x = false :=
      fun x hx => hpre x (List.mem_cons_of_mem a hx)
    obtain ⟨ih1, ih2⟩ := ih ht
    constructor
    · simp [pollCheckCalls, ha, ih1]
    · simp [pollSleepCount, ha, ih2]

/-- Witness for C4 at the spec's concrete input: responses
`[pending, pending, started]` produce exactly 3 check calls and 2
sleeps before streaming. -/
theorem pollLoop_calls_count_witness :
    pollCheckCalls ["pending", "pending", "started"] = some 3 ∧
    pollSleepCount ["pending", "pending", "started"] = some 2 :=
  pollLoop_calls_count ["pending", "pending"] "started" []
    (by intro x hx; fin_cases hx <;> decide) (by decide)

/-- C6: whenever the archive-start response lacks a `downloadId`,
`has_started` classifies the failure from the `reason` text — a
`"project"` substring selects the project-listing diagnostic, else a
`"profile"` substring selects the profile-listing diagnostic — and the
diagnostic is emitted strictly before the `RuntimeError` is raised (it
precedes `raised` in the event list, and no check call happens). -/
theorem hasStarted_missing_id_diagnostics (resp : StartResponse)
    (checkStatus : String) (h : resp.downloadId = none) :
    hasStartedEvents resp checkStatus =
      ([.diag (classifyFailure resp.reason), .raised], none) ∧
    (strContains resp.reason "project" = true →
      classifyFailure resp.reason = .printProjects) ∧
    (strContains resp.reason "project" = false →
      strContains resp.reason "profile" = true →
      classifyFailure resp.reason = .printProfiles) := by
    refine ⟨?_, ?_, ?_⟩
    · simp [hasStartedEvents, h]
    · intro hp
      simp [classifyFailure, hp]
    · intro hp1 hp2
      simp [classifyFailure, hp1, hp2]

/-- Witness for C6 at a concrete input: a start response without
`downloadId` and reason `"invalid profile id"` yields the
profile-listing diagnostic followed by the raise. -/
theorem hasStarted_missing_id_diagnostics_witness :
    hasStartedEvents ⟨none, "invalid profile id"⟩ "pending" =
      ([.diag .printProfiles, .raised], none) := by
  have h := hasStarted_missing_id_diagnostics ⟨none, "invalid profile id"⟩ "pending" rfl
  have hc := h.2.2 (by decide) (by decide)
  rw [h.1, hc]

/-- C3: output-path resolution follows the decision table.  For a base
path ending in the archive extension that does not yet exist, the
resolved path for the run's single exam (index 0) is the base path
itself; and in the spec's concrete scenario — exams with accession
numbers `"ACC123"` and `""` under directory base `./out` — the resolved
paths are `out/ACC123.zip` for index 0 and `out/exam_2.zip` for index 1. -/
theorem buildExamOutputPath_decision_table (base : List String) (exam : Rec)
    (hzip : strEndsWith (strToLower (pySuffix (pathName base))) ".zip" = true) :
    (buildExamOutputPath base false exam 0).outPath = base ∧
    (buildExamOutputPath ["out"] true [("accessionNumber", "ACC123")] 0).outPath
      = ["out", "ACC123.zip"] ∧
    (buildExamOutputPath ["out"] true [("accessionNumber", "")] 1).outPath
      = ["out", "exam_2.zip"] := by
  refine ⟨?_, by decide, by decide⟩
  simp [buildExamOutputPath, hzip]

/-- Witness for C3 at a concrete input: base path `out.zip`, absent on
disk, one exam — resolved to `out.zip` itself. -/
theorem buildExamOutputPath_decision_table_witness :
    (buildExamOutputPath ["out.zip"] false [("accessionNumber", "ACC123")] 0).outPath
      = ["out.zip"] :=
  (buildExamOutputPath_decision_table ["out.zip"] [("accessionNumber", "ACC123")]
    (by decide)).1

/-- C10: the archive-extension test is case-insensitive on the final
suffix.  Whenever the lowercased suffix of the base path's last
component ends in `.zip`, the base is treated as an archive file path —
`mkdir` is never invoked, the path is returned as-is when absent and
index-suffixed (`stem_<index+1><suffix>`) when present — and whenever it
does not, the base is treated as a directory: `mkdir(parents=True)` is
invoked and the exam's `.zip` file is placed inside it. -/
theorem buildExamOutputPath_zip_branching (base : List String) (ex : Bool)
    (exam : Rec) (i : Nat) :
    (strEndsWith (strToLower (pySuffix (pathName base))) ".zip" = true →
      (buildExamOutputPath base ex exam i).mkdirCalled = false ∧
      (ex = false → (buildExamOutputPath base ex exam i).outPath = base) ∧
      (ex = true → (buildExamOutputPath base ex exam i).outPath =
        base.dropLast ++ [pyStem (pathName base) ++ "_" ++ toString (i + 1) ++
          pySuffix (pathName base)])) ∧
    (strEndsWith (strToLower (pySuffix (pathName base))) ".zip" = false →
      (buildExamOutputPath base ex exam i).mkdirCalled = true ∧
      (buildExamOutputPath base ex exam i).outPath =
        base ++ [accName exam i ++ ".zip"]) := by
  constructor
  · intro hz
    cases ex
    · simp [buildExamOutputPath, hz]
    · simp [buildExamOutputPath, hz]
  · intro hz
    simp [buildExamOutputPath, hz]

/-- Witness for C10 at a concrete input: `out.ZIP` (uppercase
extension) is treated as an archive path — no `mkdir`, returned as-is
when absent — while `outzip` is treated as a directory. -/
theorem buildExamOutputPath_zip_branching_witness :
    strEndsWith (strToLower (pySuffix (pathName ["out.ZIP"]))) ".zip" = true ∧
    (buildExamOutputPath ["out.ZIP"] false [] 0).mkdirCalled = false ∧
    (buildExamOutputPath ["out.ZIP"] false [] 0).outPath = ["out.ZIP"] ∧
    (buildExamOutputPath ["outzip"] false [] 0).mkdirCalled = true :=
  ⟨by decide,
    ((buildExamOutputPath_zip_branching ["out.ZIP"] false [] 0).1 (by decide)).1,
    ((buildExamOutputPath_zip_branching ["out.ZIP"] false [] 0).1 (by decide)).2.1 rfl,
    ((buildExamOutputPath_zip_branching ["outzip"] false [] 0).2 (by decide)).1⟩

/-- Counterexample to C2 as stated: the resolver can return the same
destination path for two distinct exams in one run.  With directory base
`out`, two distinct exam records that share the accession number
`"ACC123"` (indices 0 and 1) both resolve to `out/ACC123.zip`. -/
theorem buildExamOutputPath_collision_cex :
    ([("accessionNumber", "ACC123")] : Rec) ≠
      [("accessionNumber", "ACC123"), ("modality", "MR")] ∧
    (buildExamOutputPath ["out"] true [("accessionNumber", "ACC123")] 0).outPath =
      (buildExamOutputPath ["out"] true
        [("accessionNumber", "ACC123"), ("modality", "MR")] 1).outPath := by
  exact ⟨by decide, by decide⟩

/-- Right-cancellation of string concatenation. -/
theorem strAppendRightCancel (a b s : String) (h : a ++ s = b ++ s) : a = b := by
  apply String.ext
  have hd : (a ++ s).data = (b ++ s).data := by rw [h]
  rw [String.data_append, String.data_append] at hd
  exact List.append_cancel_right hd

/-- C2 as amended: for a run over a directory base path, the resolver
returns pairwise-distinct paths — each inside the directory and named by
the exam's accession number or by `exam_<index+1>` when the accession is
absent or empty — provided those resolved names are pairwise distinct
across the run (without that proviso two exams sharing an accession
number collide, per the counterexample). -/
theorem resolvedPaths_nodup_of_distinct_names (base : List String) (ex : Bool)
    (exams : List Rec)
    (hdir : strEndsWith (strToLower (pySuffix (pathName base))) ".zip" = false)
    (hnames : (exams.enum.map (fun p => accName p.2 p.1)).Nodup) :
    (resolvedPaths base ex exams).Nodup ∧
    ∀ q ∈ resolvedPaths base ex exams,
      ∃ p ∈ exams.enum, q = base ++ [accName p.2 p.1 ++ ".zip"] := by
  have hpath : ∀ (e : Rec) (i : Nat),
      (buildExamOutputPath base ex e i).outPath = base ++ [accName e i ++ ".zip"] := by
    intro e i
    simp [buildExamOutputPath, hdir]
  have hres : resolvedPaths base ex exams =
      (exams.enum.map (fun p => accName p.2 p.1)).map
        (fun n => base ++ [n ++ ".zip"]) := by
    rw [resolvedPaths, List.map_map]
    exact List.map_congr_left (fun p _ => hpath p.2 p.1)
  have hinj : Function.Injective (fun n : String => base ++ [n ++ ".zip"]) := by
    intro a b hab
    have h1 := List.append_cancel_left hab
    have h2 : a ++ ".zip" = b ++ ".zip" := by simpa using h1
    exact strAppendRightCancel a b ".zip" h2
  constructor
  · rw [hres]
    exact hnames.map hinj
  · intro q hq
    rw [hres, List.map_map] at hq
    obtain ⟨p, hp, hpq⟩ := List.mem_map.mp hq
    exact ⟨p, hp, hpq.symm⟩

/-- Witness for the amended C2 at a concrete input: two exams, the
second without an accession number, under directory base `out` resolve
to the distinct paths `out/A.zip` and `out/exam_2.zip`. -/
theorem resolvedPaths_nodup_witness :
    (resolvedPaths ["out"] true [[("accessionNumber", "A")], []]).Nodup ∧
    resolvedPaths ["out"] true [[("accessionNumber", "A")], []] =
      [["out", "A.zip"], ["out", "exam_2.zip"]] :=
  ⟨(resolvedPaths_nodup_of_distinct_names ["out"] true
      [[("accessionNumber", "A")], []] (by decide) (by decide)).1,
    by decide⟩

/-- An exam whose archive-start response lacks a `downloadId` (server
refusal with a reason text). -/
def envNoJobId : ExamEnv :=
  { series := [[("description", "ax")]]
    startResp := { downloadId := none, reason := "bad project id" }
    pollStatuses := [] }

/-- An exam whose download goes through: one series, a job identifier,
and an immediately `started` poll status. -/
def envHealthy : ExamEnv :=
  { series := [[("description", "ax")]]
    startResp := { downloadId := some "1", reason := "" }
    pollStatuses := ["started"] }

/-- Counterexample to C1 as stated: a per-exam failure does escape the
per-exam boundary.  With two exams where the first one's start response
lacks a job identifier, the run raises (`Except.error`) instead of
logging and proceeding, so the second exam — which on its own downloads
fine — is never processed. -/
theorem downloadLoop_error_escapes_cex :
    downloadLoop none [envNoJobId, envHealthy] = .error () ∧
    downloadLoop none [envHealthy] = .ok [.downloaded] := by
  exact ⟨by decide, by decide⟩

/-- C1 as amended: the download loop has no per-exam exception
boundary.  A failure raised while processing one exam (here: a start
response lacking a job identifier) propagates out of the loop and aborts
the whole run, however many exams were still pending; only the
empty-filtered-series condition is handled per exam (logged and
skipped, with processing continuing). -/
theorem downloadLoop_error_aborts_run (si : Option String) (pre : List ExamEnv)
    (e : ExamEnv) (rest : List ExamEnv)
    (hpre : ∀ x ∈ pre,
      examStep si x = .ok .skippedNoSeries ∨ examStep si x = .ok .downloaded)
    (he : examStep si e = .error ()) :
    downloadLoop si (pre ++ e :: rest) = .error () := by
  induction pre with
  | nil => simp [downloadLoop, he]
  | cons a t ih =>
    have ha := hpre a (List.mem_cons_self a t)
    have ih2 := ih (fun x hx => hpre x (List.mem_cons_of_mem a hx))
    rcases ha with h1 | h1 <;> simp [downloadLoop, h1, ih2, Except.map]

/-- Witness for the amended C1 at a concrete input: a healthy exam
followed by a refused one followed by another healthy one — the run
aborts with the raised error. -/
theorem downloadLoop_error_aborts_run_witness :
    downloadLoop none [envHealthy, envNoJobId, envHealthy] = .error () :=
  downloadLoop_error_aborts_run none [envHealthy] envNoJobId [envHealthy]
    (by intro x hx; rw [List.mem_singleton] at hx; subst hx; right; decide)
    (by decide)

/-- The CSV write loop yields exactly one line per exam. -/
theorem writeCsvLines_length (mrn : Option String) (exams : List Rec)
    (lines : List String) (h : writeCsvLines mrn exams = .ok lines) :
    lines.length = exams.length := by
  induction exams generalizing lines with
  | nil =>
    simp only [writeCsvLines] at h
    have he := Except.ok.inj h
    rw [← he]
    rfl
  | cons a t ih =>
    simp only [writeCsvLines] at h
    cases hc : csvLine mrn a with
    | error u => rw [hc] at h; exact Except.noConfusion h
    | ok line =>
      rw [hc] at h
      cases hr : writeCsvLines mrn t with
      | error u => rw [hr] at h; simp [Except.map] at h
      | ok ls =>
        rw [hr] at h
        simp only [Except.map] at h
        have he := Except.ok.inj h
        rw [← he]
        simp [ih ls hr]

/-- C7: with only-list-accessions set and a non-empty filtered exam
set, the orchestrator performs no archive start/poll/stream work (its
result does not depend on the per-exam environments and carries no exam
steps): it appends to `outputBase/accessions.csv` exactly one CSV record
per matched exam — mrn, accession, dateTime, sex, birthdate,
double-quoted description, imageCount — and returns. -/
theorem downloadModel_onlyAccessions (output : List String) (mrn : Option String)
    (exams : List Rec) (mi di si : Option String) (envs : List ExamEnv)
    (exams1 exams2 : List Rec) (lines : List String)
    (h1 : applyInclusionFilter exams "modality" mi = .ok exams1)
    (h2 : applyInclusionFilter exams1 "description" di = .ok exams2)
    (hne : exams2 ≠ [])
    (h3 : writeCsvLines mrn exams2 = .ok lines) :
    downloadModel output mrn exams mi di si true envs =
      .ok (.accessionsListed (output ++ ["accessions.csv"]) lines) ∧
    lines.length = exams2.length := by
  constructor
  · have hlen : ¬ exams2.length = 0 := by
      simpa [List.length_eq_zero] using hne
    simp [downloadModel, h1, h2, h3, hlen]
  · exact writeCsvLines_length mrn exams2 lines h3

/-- A complete exam record used to instantiate C7. -/
def examRecA : Rec :=
  [("modality", "MR"), ("accessionNumber", "A"), ("dateTime", "t"), ("sex", "F"),
   ("birthdate", "b"), ("description", "d"), ("imageCount", "3")]

/-- Witness for C7 at a concrete input: one matched exam, no filters —
the run reports one CSV line into `o/accessions.csv` and never reaches
the download loop. -/
theorem downloadModel_onlyAccessions_witness :
    downloadModel ["o"] (some "M") [examRecA] none none none true [] =
      .ok (.accessionsListed ["o", "accessions.csv"] ["M,A,t,F,b,\"d\",3"]) :=
  (downloadModel_onlyAccessions ["o"] (some "M") [examRecA] none none none []
    [examRecA] [examRecA] ["M,A,t,F,b,\"d\",3"] rfl rfl (by decide) (by decide)).1

end AirDownload
